import Mathlib

/-!
Verification of the COMPAS bias-audit fairness-metric computation.

The repository has two scripts computing the same family of group-fairness
metrics over a table of defendant records:

* `compas_bias_audit.py` — `CompasBiasAuditor.calculate_fairness_metrics`
  plus the assessment expressions in `generate_report`;
* `compas_simplified_audit.py` — `analyze_bias`.

Both operate on rows carrying a `race` string, an integer `decile_score`
(1..10 in the data, any integer here), and a binary `two_year_recid`
outcome.  Decisions are `decile_score >= 5`.  All arithmetic in the scripts
is IEEE double arithmetic on exactly representable small integers followed
by divisions; we embed the computed values in an exact extended-value type
`Fval` (`fin q`, `inf`, `ninf`, `nan`) whose operations mirror the IEEE
behaviours the scripts exercise: `x/0` is `inf`/`ninf`/`nan` by the sign of
`x`, the mean of an empty column is `nan` (numpy emits a suppressed warning
and returns `nan`), any operation on `nan` is `nan`, and every comparison
with `nan` is false.  sklearn's `recall_score` / `precision_score` /
`f1_score` return `0.0` on a zero denominator (`zero_division` default), so
those are zero-filled; the hand-written numpy FPR quotient in the full
auditor is not.
-/

/-- Exact stand-in for the IEEE-double values produced by the scripts:
a finite rational, the two infinities, or `nan`. -/
inductive Fval where
  | fin (q : ℚ)
  | inf
  | ninf
  | nan
deriving DecidableEq, Repr

/-- Division as the scripts' float division behaves: division by zero gives
a signed infinity (or `nan` for `0/0`), `nan` is absorbing. -/
def Fval.div : Fval → Fval → Fval
  | nan, _ => nan
  | _, nan => nan
  | fin a, fin b =>
    if b = 0 then (if a = 0 then nan else if 0 < a then inf else ninf)
    else fin (a / b)
  | fin _, inf => fin 0
  | fin _, ninf => fin 0
  | inf, fin b => if b < 0 then ninf else inf
  | ninf, fin b => if b < 0 then inf else ninf
  | inf, inf => nan
  | inf, ninf => nan
  | ninf, inf => nan
  | ninf, ninf => nan

/-- Subtraction on the extended values; `nan` is absorbing, `inf - inf = nan`. -/
def Fval.sub : Fval → Fval → Fval
  | nan, _ => nan
  | _, nan => nan
  | fin a, fin b => fin (a - b)
  | inf, inf => nan
  | ninf, ninf => nan
  | inf, _ => inf
  | ninf, _ => ninf
  | fin _, inf => ninf
  | fin _, ninf => inf

/-- Absolute value; `abs nan = nan`, `abs (±inf) = inf`. -/
def Fval.abs : Fval → Fval
  | fin a => fin |a|
  | nan => nan
  | _ => inf

/-- Strict order as IEEE `<`: every comparison involving `nan` is false. -/
def Fval.lt : Fval → Fval → Bool
  | nan, _ => false
  | _, nan => false
  | fin a, fin b => decide (a < b)
  | fin _, inf => true
  | fin _, ninf => false
  | inf, _ => false
  | ninf, ninf => false
  | ninf, _ => true

/-- Whether the value is a finite number inside the closed unit interval —
the shape every well-defined rate is claimed to have. -/
def Fval.inUnit : Fval → Bool
  | fin q => decide (0 ≤ q ∧ q ≤ 1)
  | _ => false

/-- Mean of a 0/1 column with `num` ones among `den` entries, as
`numpy`/`pandas` compute it: `nan` on an empty column, else the exact
quotient. -/
def meanCount (num den : ℕ) : Fval :=
  if den = 0 then .nan else .fin ((num : ℚ) / (den : ℚ))

/-- A row of the cleaned COMPAS table, restricted to the columns the
fairness-metric computations read (`race`, `decile_score`,
`two_year_recid`) plus the `high_risk` column that `analyze_bias` writes
into the frame (absent, i.e. `none`, until written). -/
structure Row where
  race : String
  decile_score : Int
  two_year_recid : Bool
  high_risk : Option Bool
deriving DecidableEq, Repr

/-- `data['race'] == 'African-American'` — the cohort predicate both
scripts use (the full auditor materialises it as `race_binary`). -/
def raceBinary (r : Row) : Bool := r.race == "African-American"

/-- `decile_score >= t` — the inclusive high-risk decision at threshold
`t`.  `analyze_bias` names the threshold `high_risk_threshold`. -/
def computeHighRisk (t : Int) (r : Row) : Bool := decide (t ≤ r.decile_score)

/-- The simplified script's threshold constant: `high_risk_threshold = 5`. -/
def high_risk_threshold : Int := 5

/-- `y_pred = (self.data['decile_score'] >= 5).astype(int)` — the full
auditor's decision, with the literal threshold 5. -/
def fullYPred (r : Row) : Bool := decide (5 ≤ r.decile_score)

/-- Reading the `high_risk` column (false on an absent entry; the scripts
only read it after writing it, so the default is never observed). -/
def colHighRisk (r : Row) : Bool := r.high_risk.getD false

/-- `data['high_risk'] = (data['decile_score'] >= t).astype(int)` — the
in-place column assignment in `analyze_bias`, as a frame transformer. -/
def setHighRisk (t : Int) (data : List Row) : List Row :=
  data.map (fun r => { r with high_risk := some (computeHighRisk t r) })

/-- Drop the derived `high_risk` column, for stating what the column
assignment leaves untouched. -/
def eraseHighRisk (r : Row) : Row := { r with high_risk := none }

/-- The metric dictionary built by `analyze_bias`
(`compas_simplified_audit.py`), with every key it populates. -/
structure SimpMetrics where
  selection_rate_aa : Fval
  selection_rate_other : Fval
  disparate_impact : Fval
  fpr_aa : Fval
  fpr_other : Fval
  tpr_aa : Fval
  tpr_other : Fval
deriving DecidableEq, Repr

/-- `aa_data = data[data['race'] == 'African-American']` after the
`high_risk` assignment at threshold `t`. -/
def aaData (t : Int) (data : List Row) : List Row :=
  (setHighRisk t data).filter (fun r => r.race == "African-American")

/-- `other_data = data[data['race'] != 'African-American']` after the
`high_risk` assignment at threshold `t`. -/
def otherData (t : Int) (data : List Row) : List Row :=
  (setHighRisk t data).filter (fun r => !(r.race == "African-American"))

/-- `cohort['high_risk'].mean()` — a cohort's selection rate. -/
def hrMean (rows : List Row) : Fval :=
  meanCount (rows.countP colHighRisk) rows.length

/-- `cohort[cohort['two_year_recid'] == 0]` — the negative-outcome subset. -/
def noRecid (rows : List Row) : List Row :=
  rows.filter (fun r => !r.two_year_recid)

/-- `cohort[cohort['two_year_recid'] == 1]` — the positive-outcome subset. -/
def yesRecid (rows : List Row) : List Row :=
  rows.filter (fun r => r.two_year_recid)

/-- `analyze_bias` at an explicit threshold: computes the metric
dictionary and (because the script assigns the `high_risk` column into the
caller's frame) also returns the data frame as the script leaves it. -/
def analyze_bias_at (t : Int) (data : List Row) : SimpMetrics × List Row :=
  (⟨hrMean (aaData t data),
    hrMean (otherData t data),
    Fval.div (hrMean (aaData t data)) (hrMean (otherData t data)),
    if 0 < (noRecid (aaData t data)).length then hrMean (noRecid (aaData t data)) else .fin 0,
    if 0 < (noRecid (otherData t data)).length then hrMean (noRecid (otherData t data)) else .fin 0,
    if 0 < (yesRecid (aaData t data)).length then hrMean (yesRecid (aaData t data)) else .fin 0,
    if 0 < (yesRecid (otherData t data)).length then hrMean (yesRecid (otherData t data)) else .fin 0⟩,
   setHighRisk t data)

/-- `analyze_bias` as written, with `high_risk_threshold = 5`. -/
def analyze_bias (data : List Row) : SimpMetrics × List Row :=
  analyze_bias_at high_risk_threshold data

/-- Per-record `(y_true, y_pred)` pairs of a row list, as the full auditor
slices its prediction and label arrays by a cohort mask. -/
def pairsOf (rows : List Row) : List (Bool × Bool) :=
  rows.map (fun r => (r.two_year_recid, fullYPred r))

/-- Count of true positives (`y_true == 1 & y_pred == 1`). -/
def tpCount (l : List (Bool × Bool)) : ℕ := l.countP (fun pr => pr.1 && pr.2)

/-- Count of false positives (`y_true == 0 & y_pred == 1`). -/
def fpCount (l : List (Bool × Bool)) : ℕ := l.countP (fun pr => !pr.1 && pr.2)

/-- Count of actual positives (`y_true == 1`). -/
def posCount (l : List (Bool × Bool)) : ℕ := l.countP (fun pr => pr.1)

/-- Count of actual negatives (`y_true == 0`). -/
def negCount (l : List (Bool × Bool)) : ℕ := l.countP (fun pr => !pr.1)

/-- Count of predicted positives (`y_pred == 1`). -/
def predPosCount (l : List (Bool × Bool)) : ℕ := l.countP (fun pr => pr.2)

/-- sklearn `recall_score` (binary, `pos_label=1`): zero-filled when there
are no actual positives (`zero_division` default returns `0.0`). -/
def recall_score (l : List (Bool × Bool)) : ℚ :=
  if posCount l = 0 then 0 else (tpCount l : ℚ) / (posCount l : ℚ)

/-- sklearn `precision_score`: zero-filled when nothing is predicted
positive. -/
def precision_score (l : List (Bool × Bool)) : ℚ :=
  if predPosCount l = 0 then 0 else (tpCount l : ℚ) / (predPosCount l : ℚ)

/-- sklearn `f1_score` via the confusion matrix: `2TP / (2TP + FP + FN)`,
zero-filled when that denominator is zero. -/
def f1_score (l : List (Bool × Bool)) : ℚ :=
  if 2 * tpCount l + fpCount l + (posCount l - tpCount l) = 0 then 0
  else (2 * tpCount l : ℚ) / ((2 * tpCount l + fpCount l + (posCount l - tpCount l) : ℕ) : ℚ)

/-- sklearn `accuracy_score`: fraction of agreeing pairs. -/
def accuracy_score (l : List (Bool × Bool)) : Fval :=
  meanCount (l.countP (fun pr => pr.1 == pr.2)) l.length

/-- The hand-written numpy FPR of the full auditor:
`np.sum((y_true == 0) & (y_pred == 1)) / np.sum(y_true == 0)` — an
unguarded float quotient (`0/0` is `nan`, the warning is suppressed). -/
def numpyFpr (l : List (Bool × Bool)) : Fval :=
  Fval.div (.fin (fpCount l : ℚ)) (.fin (negCount l : ℚ))

/-- `np.mean(y_pred[mask])` — a cohort's selection rate in the full
auditor (`nan` on an empty cohort). -/
def npSelectionRate (l : List (Bool × Bool)) : Fval :=
  meanCount (predPosCount l) l.length

/-- The metric dictionary built by
`CompasBiasAuditor.calculate_fairness_metrics`, with every key it
populates. -/
structure FullMetrics where
  accuracy : Fval
  precisionOverall : Fval
  recallOverall : Fval
  f1 : Fval
  tpr_african_american : Fval
  tpr_others : Fval
  fpr_african_american : Fval
  fpr_others : Fval
  tnr_african_american : Fval
  tnr_others : Fval
  selection_rate_african_american : Fval
  selection_rate_others : Fval
  tpr_difference : Fval
  fpr_difference : Fval
  disparate_impact : Fval
deriving DecidableEq, Repr

/-- The African-American cohort rows of the full auditor
(`race_labels == 1`). -/
def aaRows (pop : List Row) : List Row := pop.filter raceBinary

/-- The reference ("Others") cohort rows (`race_labels == 0`). -/
def othersRows (pop : List Row) : List Row := pop.filter (fun r => !raceBinary r)

/-- `CompasBiasAuditor.calculate_fairness_metrics` over a population:
classification scores on the whole table, group rates on the two
race-mask slices, gap metrics, and the guarded disparate impact
(`... if selection_rate_others > 0 else float('inf')`). -/
def calculate_fairness_metrics (pop : List Row) : FullMetrics :=
  let allPairs := pairsOf pop
  let aaPairs := pairsOf (aaRows pop)
  let otherPairs := pairsOf (othersRows pop)
  let fpr_aa := numpyFpr aaPairs
  let fpr_others := numpyFpr otherPairs
  let sr_aa := npSelectionRate aaPairs
  let sr_others := npSelectionRate otherPairs
  { accuracy := accuracy_score allPairs
    precisionOverall := .fin (precision_score allPairs)
    recallOverall := .fin (recall_score allPairs)
    f1 := .fin (f1_score allPairs)
    tpr_african_american := .fin (recall_score aaPairs)
    tpr_others := .fin (recall_score otherPairs)
    fpr_african_american := fpr_aa
    fpr_others := fpr_others
    tnr_african_american := Fval.sub (.fin 1) fpr_aa
    tnr_others := Fval.sub (.fin 1) fpr_others
    selection_rate_african_american := sr_aa
    selection_rate_others := sr_others
    tpr_difference := Fval.abs (Fval.sub (.fin (recall_score aaPairs)) (.fin (recall_score otherPairs)))
    fpr_difference := Fval.abs (Fval.sub fpr_aa fpr_others)
    disparate_impact :=
      if Fval.lt (.fin 0) sr_others then Fval.div sr_aa sr_others else .inf }

/-- The demographic-parity assessment shared by `generate_report`
(line 269) and `analyze_bias` (line 129):
`VIOLATED if disparate_impact < 0.8 or disparate_impact > 1.2`. -/
def demParityViolated (x : Fval) : Bool :=
  Fval.lt x (.fin (0.8 : ℚ)) || Fval.lt (.fin (1.2 : ℚ)) x

/-- The equal-opportunity assessment shared by `generate_report`
(line 275, on `fpr_difference`) and `analyze_bias` (line 134):
`VIOLATED if |fpr gap| > 0.05`. -/
def eqOppViolated (gap : Fval) : Bool := Fval.lt (.fin (0.05 : ℚ)) gap

/-- The FPR gap expression of `analyze_bias`
(`abs(metrics['fpr_aa'] - metrics['fpr_other'])`). -/
def simpFprGap (m : SimpMetrics) : Fval := Fval.abs (Fval.sub m.fpr_aa m.fpr_other)

/-- The TPR gap of the simplified metrics (the spec's `tpr_gap`). -/
def simpTprGap (m : SimpMetrics) : Fval := Fval.abs (Fval.sub m.tpr_aa m.tpr_other)

/-- Concrete population whose reference ("Others") cohort is non-empty but
has selection rate 0 (its only member scores below the threshold). -/
def popZeroRef : List Row :=
  [⟨"African-American", 7, false, none⟩, ⟨"Other", 1, false, none⟩]

/-- Concrete non-empty population whose African-American cohort has no
negative-outcome record (both cohorts non-empty). -/
def popNoNegAA : List Row :=
  [⟨"African-American", 7, true, none⟩, ⟨"Other", 1, true, none⟩,
   ⟨"Other", 1, false, none⟩]

/-- Concrete population whose two cohorts hold literally identical
(score, outcome) content — one low-scoring recidivist each — so both
selection rates are 0. -/
def popIdenticalZeroSel : List Row :=
  [⟨"African-American", 1, true, none⟩, ⟨"Other", 1, true, none⟩]

/-- Concrete population whose two cohorts hold identical content with one
selected record and one negative-outcome record each. -/
def popBalanced : List Row :=
  [⟨"African-American", 7, false, none⟩, ⟨"African-American", 1, true, none⟩,
   ⟨"Other", 7, false, none⟩, ⟨"Other", 1, true, none⟩]

/-- Concrete population in which every cohort has both a positive- and a
negative-outcome record. -/
def popAllSubsets : List Row :=
  [⟨"African-American", 7, true, none⟩, ⟨"African-American", 1, false, none⟩,
   ⟨"Other", 7, true, none⟩, ⟨"Other", 1, false, none⟩]

/-- A single row without the derived `high_risk` column. -/
def rowAA7t : Row := ⟨"African-American", 7, true, none⟩

/-! Normalisation lemmas: the simplified script's metrics, computed on the
frame after the `high_risk` column assignment, equal direct counts over the
original rows. -/

theorem length_setHighRisk (t : Int) (rows : List Row) :
    (setHighRisk t rows).length = rows.length := by
  simp [setHighRisk]

theorem filter_setHighRisk (t : Int) (p : Row → Bool) (data : List Row)
    (hp : ∀ r : Row, p { r with high_risk := some (computeHighRisk t r) } = p r) :
    (setHighRisk t data).filter p = setHighRisk t (data.filter p) := by
  unfold setHighRisk
  rw [List.filter_map]
  congr 1
  apply List.filter_congr
  intro a _
  exact hp a

theorem aaData_eq (t : Int) (data : List Row) :
    aaData t data = setHighRisk t (aaRows data) :=
  filter_setHighRisk t _ data (fun _ => rfl)

theorem otherData_eq (t : Int) (data : List Row) :
    otherData t data = setHighRisk t (othersRows data) :=
  filter_setHighRisk t _ data (fun _ => rfl)

theorem noRecid_setHighRisk (t : Int) (rows : List Row) :
    noRecid (setHighRisk t rows) = setHighRisk t (noRecid rows) :=
  filter_setHighRisk t _ rows (fun _ => rfl)

theorem yesRecid_setHighRisk (t : Int) (rows : List Row) :
    yesRecid (setHighRisk t rows) = setHighRisk t (yesRecid rows) :=
  filter_setHighRisk t _ rows (fun _ => rfl)

theorem hrMean_setHighRisk (t : Int) (rows : List Row) :
    hrMean (setHighRisk t rows)
      = meanCount (rows.countP (computeHighRisk t)) rows.length := by
  unfold hrMean setHighRisk
  rw [List.countP_map, List.length_map]
  rfl

theorem analyze_bias_at_fst (t : Int) (data : List Row) :
    (analyze_bias_at t data).1 =
      ⟨meanCount ((aaRows data).countP (computeHighRisk t)) (aaRows data).length,
       meanCount ((othersRows data).countP (computeHighRisk t)) (othersRows data).length,
       Fval.div
         (meanCount ((aaRows data).countP (computeHighRisk t)) (aaRows data).length)
         (meanCount ((othersRows data).countP (computeHighRisk t)) (othersRows data).length),
       if 0 < (noRecid (aaRows data)).length then
         meanCount ((noRecid (aaRows data)).countP (computeHighRisk t)) (noRecid (aaRows data)).length
       else .fin 0,
       if 0 < (noRecid (othersRows data)).length then
         meanCount ((noRecid (othersRows data)).countP (computeHighRisk t)) (noRecid (othersRows data)).length
       else .fin 0,
       if 0 < (yesRecid (aaRows data)).length then
         meanCount ((yesRecid (aaRows data)).countP (computeHighRisk t)) (yesRecid (aaRows data)).length
       else .fin 0,
       if 0 < (yesRecid (othersRows data)).length then
         meanCount ((yesRecid (othersRows data)).countP (computeHighRisk t)) (yesRecid (othersRows data)).length
       else .fin 0⟩ := by
  simp only [analyze_bias_at, aaData_eq, otherData_eq, noRecid_setHighRisk,
    yesRecid_setHighRisk, hrMean_setHighRisk, length_setHighRisk]

/-! Bridges between the two scripts' cohort counts. -/

theorem pairsOf_countP (p : Bool × Bool → Bool) (rows : List Row) :
    (pairsOf rows).countP p
      = rows.countP (fun r => p (r.two_year_recid, fullYPred r)) := by
  unfold pairsOf
  rw [List.countP_map]
  rfl

theorem pairsOf_length (rows : List Row) : (pairsOf rows).length = rows.length := by
  simp [pairsOf]

theorem npSelectionRate_pairsOf (rows : List Row) :
    npSelectionRate (pairsOf rows)
      = meanCount (rows.countP (computeHighRisk 5)) rows.length := by
  unfold npSelectionRate predPosCount
  rw [pairsOf_countP, pairsOf_length]
  rfl

theorem simp_sr_other_eq_full (data : List Row) :
    (analyze_bias data).1.selection_rate_other
      = (calculate_fairness_metrics data).selection_rate_others := by
  rw [analyze_bias, analyze_bias_at_fst, high_risk_threshold]
  simp only [calculate_fairness_metrics, npSelectionRate_pairsOf]

/-! Shape lemmas for the extended values the metric computations produce. -/

theorem meanCount_fin (num den : ℕ) (h : den ≠ 0) :
    ∃ q : ℚ, meanCount num den = .fin q ∧ 0 ≤ q ∧ (num ≤ den → q ≤ 1) := by
  refine ⟨(num : ℚ) / (den : ℚ), ?_, by positivity, ?_⟩
  · simp [meanCount, h]
  · intro hle
    rw [div_le_one (by exact_mod_cast Nat.pos_of_ne_zero h)]
    exact_mod_cast hle

theorem meanCount_shape (num den : ℕ) (h : num ≤ den) :
    meanCount num den = .nan ∨
      ∃ q : ℚ, meanCount num den = .fin q ∧ 0 ≤ q ∧ q ≤ 1 := by
  rcases Nat.eq_zero_or_pos den with hd | hd
  · left; simp [meanCount, hd]
  · right
    obtain ⟨q, hq, h0, h1⟩ := meanCount_fin num den (Nat.pos_iff_ne_zero.mp hd)
    exact ⟨q, hq, h0, h1 h⟩

theorem hrMean_shape (rows : List Row) :
    hrMean rows = .nan ∨ ∃ q : ℚ, hrMean rows = .fin q ∧ 0 ≤ q ∧ q ≤ 1 :=
  meanCount_shape _ _ (List.countP_le_length _)

theorem npSelectionRate_shape (l : List (Bool × Bool)) :
    npSelectionRate l = .nan ∨
      ∃ q : ℚ, npSelectionRate l = .fin q ∧ 0 ≤ q ∧ q ≤ 1 :=
  meanCount_shape _ _ (List.countP_le_length _)

theorem fpCount_le_negCount (l : List (Bool × Bool)) : fpCount l ≤ negCount l := by
  apply List.countP_mono_left
  intro a _ h
  exact (Bool.and_eq_true .. ▸ h).1

theorem tpCount_le_posCount (l : List (Bool × Bool)) : tpCount l ≤ posCount l := by
  apply List.countP_mono_left
  intro a _ h
  exact (Bool.and_eq_true .. ▸ h).1

theorem tpCount_le_predPosCount (l : List (Bool × Bool)) : tpCount l ≤ predPosCount l := by
  apply List.countP_mono_left
  intro a _ h
  exact (Bool.and_eq_true .. ▸ h).2

theorem numpyFpr_shape (l : List (Bool × Bool)) :
    numpyFpr l = .nan ∨ ∃ q : ℚ, numpyFpr l = .fin q ∧ 0 ≤ q ∧ q ≤ 1 := by
  rcases Nat.eq_zero_or_pos (negCount l) with h | h
  · left
    have hfp : fpCount l = 0 := Nat.le_zero.mp (h ▸ fpCount_le_negCount l)
    simp [numpyFpr, hfp, h, Fval.div]
  · right
    have hne : ((negCount l : ℚ)) ≠ 0 := by
      exact_mod_cast Nat.pos_iff_ne_zero.mp h
    refine ⟨(fpCount l : ℚ) / (negCount l : ℚ), ?_, by positivity, ?_⟩
    · simp [numpyFpr, Fval.div, hne]
    · rw [div_le_one (by exact_mod_cast h)]
      exact_mod_cast fpCount_le_negCount l

theorem recall_score_mem (l : List (Bool × Bool)) :
    0 ≤ recall_score l ∧ recall_score l ≤ 1 := by
  unfold recall_score
  split_ifs with h
  · norm_num
  · refine ⟨by positivity, ?_⟩
    rw [div_le_one (by exact_mod_cast Nat.pos_of_ne_zero h)]
    exact_mod_cast tpCount_le_posCount l

theorem precision_score_mem (l : List (Bool × Bool)) :
    0 ≤ precision_score l ∧ precision_score l ≤ 1 := by
  unfold precision_score
  split_ifs with h
  · norm_num
  · refine ⟨by positivity, ?_⟩
    rw [div_le_one (by exact_mod_cast Nat.pos_of_ne_zero h)]
    exact_mod_cast tpCount_le_predPosCount l

theorem f1_score_mem (l : List (Bool × Bool)) :
    0 ≤ f1_score l ∧ f1_score l ≤ 1 := by
  unfold f1_score
  split_ifs with h
  · norm_num
  · refine ⟨by positivity, ?_⟩
    rw [div_le_one (by exact_mod_cast Nat.pos_of_ne_zero h)]
    have hle : 2 * tpCount l ≤ 2 * tpCount l + fpCount l + (posCount l - tpCount l) := by
      omega
    exact_mod_cast hle

theorem div_fin_zero_not_fin (x : Fval) (q : ℚ) : Fval.div x (.fin 0) ≠ .fin q := by
  cases x <;> simp [Fval.div]
  split_ifs <;> simp

theorem div_shape (x y : Fval) (hx : x = .nan ∨ ∃ q : ℚ, x = .fin q ∧ 0 ≤ q)
    (hy : y = .nan ∨ ∃ q : ℚ, y = .fin q ∧ 0 ≤ q) :
    Fval.div x y = .nan ∨ Fval.div x y = .inf ∨
      ∃ q : ℚ, Fval.div x y = .fin q ∧ 0 ≤ q := by
  rcases hx with hx | ⟨a, hx, ha⟩ <;> rcases hy with hy | ⟨b, hy, hb⟩ <;> subst hx <;> subst hy
  · left; rfl
  · left; rfl
  · left; rfl
  · by_cases hb0 : b = 0
    · subst hb0
      by_cases ha0 : a = 0
      · left; simp [Fval.div, ha0]
      · right; left
        simp [Fval.div, ha0, lt_of_le_of_ne ha (Ne.symm ha0)]
    · right; right
      exact ⟨a / b, by simp [Fval.div, hb0], by positivity⟩

theorem abs_sub_not_inf (x y : Fval)
    (hx : x ≠ .inf ∧ x ≠ .ninf) (hy : y ≠ .inf ∧ y ≠ .ninf) :
    Fval.abs (Fval.sub x y) ≠ .inf := by
  cases x <;> cases y <;> simp_all [Fval.sub, Fval.abs]

theorem demParityViolated_iff (x : Fval) (hx : x ≠ .ninf) :
    demParityViolated x = true ↔
      (∃ q : ℚ, x = .fin q ∧ (q < 0.8 ∨ (1.2 : ℚ) < q)) ∨ x = .inf := by
  cases x with
  | fin q => simp [demParityViolated, Fval.lt]
  | inf => simp [demParityViolated, Fval.lt]
  | ninf => exact absurd rfl hx
  | nan => simp [demParityViolated, Fval.lt]

theorem eqOppViolated_iff (g : Fval) (hg : g ≠ .inf) :
    eqOppViolated g = true ↔ ∃ q : ℚ, g = .fin q ∧ (0.05 : ℚ) < q := by
  cases g with
  | fin q => simp [eqOppViolated, Fval.lt]
  | inf => exact absurd rfl hg
  | ninf => simp [eqOppViolated, Fval.lt]
  | nan => simp [eqOppViolated, Fval.lt]

theorem numpyFpr_fin (l : List (Bool × Bool)) (h : negCount l ≠ 0) :
    ∃ q : ℚ, numpyFpr l = .fin q ∧ 0 ≤ q ∧ q ≤ 1 := by
  have hne : ((negCount l : ℚ)) ≠ 0 := by exact_mod_cast h
  refine ⟨(fpCount l : ℚ) / (negCount l : ℚ), ?_, by positivity, ?_⟩
  · simp [numpyFpr, Fval.div, hne]
  · rw [div_le_one (by exact_mod_cast Nat.pos_of_ne_zero h)]
    exact_mod_cast fpCount_le_negCount l

theorem numpyFpr_not_infinite (l : List (Bool × Bool)) :
    numpyFpr l ≠ .inf ∧ numpyFpr l ≠ .ninf := by
  rcases numpyFpr_shape l with h | ⟨q, hq, _, _⟩
  · simp [h]
  · simp [hq]

theorem shape_ne_ninf {x : Fval}
    (h : x = .nan ∨ x = .inf ∨ ∃ q : ℚ, x = .fin q ∧ 0 ≤ q) : x ≠ .ninf := by
  rcases h with h | h | ⟨q, hq, _⟩
  · simp [h]
  · simp [h]
  · simp [hq]

theorem full_di_shape (pop : List Row) :
    (calculate_fairness_metrics pop).disparate_impact = .nan ∨
    (calculate_fairness_metrics pop).disparate_impact = .inf ∨
    ∃ q : ℚ, (calculate_fairness_metrics pop).disparate_impact = .fin q ∧ 0 ≤ q := by
  have hshape : ∀ l, npSelectionRate l = .nan ∨
      ∃ q : ℚ, npSelectionRate l = .fin q ∧ 0 ≤ q := by
    intro l
    rcases npSelectionRate_shape l with h | ⟨q, hq, h0, _⟩
    · exact .inl h
    · exact .inr ⟨q, hq, h0⟩
  simp only [calculate_fairness_metrics]
  split_ifs with h
  · exact div_shape _ _ (hshape _) (hshape _)
  · right; left; rfl

theorem hrMean_weak_shape (rows : List Row) :
    hrMean rows = .nan ∨ ∃ q : ℚ, hrMean rows = .fin q ∧ 0 ≤ q := by
  rcases hrMean_shape rows with h | ⟨q, hq, h0, _⟩
  · exact .inl h
  · exact .inr ⟨q, hq, h0⟩

theorem simp_di_shape (data : List Row) :
    (analyze_bias data).1.disparate_impact = .nan ∨
    (analyze_bias data).1.disparate_impact = .inf ∨
    ∃ q : ℚ, (analyze_bias data).1.disparate_impact = .fin q ∧ 0 ≤ q := by
  simp only [analyze_bias, analyze_bias_at]
  exact div_shape _ _ (hrMean_weak_shape _) (hrMean_weak_shape _)

theorem full_fpr_difference_not_inf (pop : List Row) :
    (calculate_fairness_metrics pop).fpr_difference ≠ .inf := by
  simp only [calculate_fairness_metrics]
  exact abs_sub_not_inf _ _ (numpyFpr_not_infinite _) (numpyFpr_not_infinite _)

theorem hrMean_guard_fin (rows : List Row) :
    ∃ q : ℚ, (if 0 < rows.length then hrMean rows else .fin 0) = .fin q ∧
      0 ≤ q ∧ q ≤ 1 := by
  split_ifs with h
  · unfold hrMean
    obtain ⟨q, hq, h0, h1⟩ := meanCount_fin _ _ (Nat.pos_iff_ne_zero.mp h)
    exact ⟨q, hq, h0, h1 (List.countP_le_length _)⟩
  · exact ⟨0, rfl, le_refl 0, by norm_num⟩

theorem simp_fpr_fin (data : List Row) :
    (∃ q : ℚ, (analyze_bias data).1.fpr_aa = .fin q ∧ 0 ≤ q ∧ q ≤ 1) ∧
    (∃ q : ℚ, (analyze_bias data).1.fpr_other = .fin q ∧ 0 ≤ q ∧ q ≤ 1) := by
  exact ⟨hrMean_guard_fin _, hrMean_guard_fin _⟩

theorem simp_tpr_fin (data : List Row) :
    (∃ q : ℚ, (analyze_bias data).1.tpr_aa = .fin q ∧ 0 ≤ q ∧ q ≤ 1) ∧
    (∃ q : ℚ, (analyze_bias data).1.tpr_other = .fin q ∧ 0 ≤ q ∧ q ≤ 1) := by
  exact ⟨hrMean_guard_fin _, hrMean_guard_fin _⟩

theorem simp_fpr_gap_not_inf (pop : List Row) :
    simpFprGap (analyze_bias pop).1 ≠ .inf := by
  obtain ⟨⟨a, ha, _, _⟩, ⟨b, hb, _, _⟩⟩ := simp_fpr_fin pop
  simp [simpFprGap, ha, hb, Fval.sub, Fval.abs]

/-! Count bridges between the row-level subsets of the simplified script
and the masked-array counts of the full auditor. -/

theorem noRecid_length_eq_negCount (rows : List Row) :
    (noRecid rows).length = negCount (pairsOf rows) := by
  unfold noRecid negCount
  rw [pairsOf_countP, ← List.countP_eq_length_filter]

theorem yesRecid_length_eq_posCount (rows : List Row) :
    (yesRecid rows).length = posCount (pairsOf rows) := by
  unfold yesRecid posCount
  rw [pairsOf_countP, ← List.countP_eq_length_filter]

theorem noRecid_countP_eq_fpCount (rows : List Row) :
    (noRecid rows).countP (computeHighRisk 5) = fpCount (pairsOf rows) := by
  unfold noRecid fpCount
  rw [pairsOf_countP, List.countP_filter]
  apply List.countP_congr
  intro r _
  simp [computeHighRisk, fullYPred, and_comm]

theorem yesRecid_countP_eq_tpCount (rows : List Row) :
    (yesRecid rows).countP (computeHighRisk 5) = tpCount (pairsOf rows) := by
  unfold yesRecid tpCount
  rw [pairsOf_countP, List.countP_filter]
  apply List.countP_congr
  intro r _
  simp [computeHighRisk, fullYPred, and_comm]

theorem countP_chr5_eq_predPosCount (rows : List Row) :
    rows.countP (computeHighRisk 5) = predPosCount (pairsOf rows) := by
  unfold predPosCount
  rw [pairsOf_countP]
  rfl

/-! Commutation of the cohort computations with the `high_risk` column
assignment and with dropping that column. -/

theorem aaRows_setHighRisk (t : Int) (data : List Row) :
    aaRows (setHighRisk t data) = setHighRisk t (aaRows data) :=
  filter_setHighRisk t _ data (fun _ => rfl)

theorem othersRows_setHighRisk (t : Int) (data : List Row) :
    othersRows (setHighRisk t data) = setHighRisk t (othersRows data) :=
  filter_setHighRisk t _ data (fun _ => rfl)

theorem pairsOf_setHighRisk (t : Int) (rows : List Row) :
    pairsOf (setHighRisk t rows) = pairsOf rows := by
  unfold pairsOf setHighRisk
  rw [List.map_map]
  rfl

theorem filter_map_eraseHighRisk (p : Row → Bool) (data : List Row)
    (hp : ∀ r : Row, p (eraseHighRisk r) = p r) :
    (data.map eraseHighRisk).filter p = (data.filter p).map eraseHighRisk := by
  rw [List.filter_map]
  congr 1
  exact List.filter_congr (fun a _ => hp a)

theorem countP_map_eraseHighRisk (p : Row → Bool) (data : List Row)
    (hp : ∀ r : Row, p (eraseHighRisk r) = p r) :
    (data.map eraseHighRisk).countP p = data.countP p := by
  rw [List.countP_map]
  apply List.countP_congr
  intro r _
  rw [Function.comp_apply, hp r]

theorem aaRows_erase (data : List Row) :
    aaRows (data.map eraseHighRisk) = (aaRows data).map eraseHighRisk :=
  filter_map_eraseHighRisk _ data (fun _ => rfl)

theorem othersRows_erase (data : List Row) :
    othersRows (data.map eraseHighRisk) = (othersRows data).map eraseHighRisk :=
  filter_map_eraseHighRisk _ data (fun _ => rfl)

theorem noRecid_erase (rows : List Row) :
    noRecid (rows.map eraseHighRisk) = (noRecid rows).map eraseHighRisk :=
  filter_map_eraseHighRisk _ rows (fun _ => rfl)

theorem yesRecid_erase (rows : List Row) :
    yesRecid (rows.map eraseHighRisk) = (yesRecid rows).map eraseHighRisk :=
  filter_map_eraseHighRisk _ rows (fun _ => rfl)

theorem countP_chr_erase (t : Int) (rows : List Row) :
    (rows.map eraseHighRisk).countP (computeHighRisk t) = rows.countP (computeHighRisk t) :=
  countP_map_eraseHighRisk _ rows (fun _ => rfl)

/-! Concrete evaluation helpers: `decide` settles the integer/list level,
and these lemmas push zero counts through the rational layer. -/

theorem full_sr_others_zero (pop : List Row)
    (hc : (othersRows pop).countP (computeHighRisk 5) = 0)
    (hl : (othersRows pop).length ≠ 0) :
    (calculate_fairness_metrics pop).selection_rate_others = .fin 0 := by
  show npSelectionRate (pairsOf (othersRows pop)) = .fin 0
  rw [npSelectionRate_pairsOf, hc]
  simp [meanCount, hl]

/-! Claim theorems. -/

/-- C1: whenever the reference ("Others") cohort's selection rate is zero,
both scripts leave the disparate impact non-finite — the full auditor's
guard yields `float('inf')` explicitly, and the simplified script's bare
division yields the IEEE non-finite result (`inf`, or `nan` when the
numerator is also zero) — with no crash and no clamping to a finite
number. -/
theorem disparate_impact_nonfinite_on_zero_reference (pop : List Row)
    (h : (calculate_fairness_metrics pop).selection_rate_others = .fin 0) :
    (calculate_fairness_metrics pop).disparate_impact = .inf ∧
      ∀ q : ℚ, (analyze_bias pop).1.disparate_impact ≠ .fin q := by
  constructor
  · simp only [calculate_fairness_metrics] at h ⊢
    rw [h]
    simp [Fval.lt]
  · intro q
    have hs : (analyze_bias pop).1.selection_rate_other = .fin 0 := by
      rw [simp_sr_other_eq_full]; exact h
    have hdi : (analyze_bias pop).1.disparate_impact
        = Fval.div (analyze_bias pop).1.selection_rate_aa
            (analyze_bias pop).1.selection_rate_other := rfl
    rw [hdi, hs]
    exact div_fin_zero_not_fin _ q

/-- C1 witness: `popZeroRef` has reference selection rate 0, and the
theorem applies to it. -/
theorem disparate_impact_nonfinite_on_zero_reference_witness :
    (calculate_fairness_metrics popZeroRef).disparate_impact = .inf ∧
      ∀ q : ℚ, (analyze_bias popZeroRef).1.disparate_impact ≠ .fin q :=
  disparate_impact_nonfinite_on_zero_reference popZeroRef
    (full_sr_others_zero popZeroRef (by decide) (by decide))

/-- C10: in the full auditor, a zero reference selection rate makes
`disparate_impact = float('inf')`, and the report's demographic-parity
assessment still evaluates to VIOLATED (`inf > 1.2` holds in the IEEE
order), with no special-casing and no error. -/
theorem full_zero_reference_inf_assessed_violated (pop : List Row)
    (h : (calculate_fairness_metrics pop).selection_rate_others = .fin 0) :
    (calculate_fairness_metrics pop).disparate_impact = .inf ∧
      demParityViolated (calculate_fairness_metrics pop).disparate_impact = true := by
  have hdi : (calculate_fairness_metrics pop).disparate_impact = .inf := by
    simp only [calculate_fairness_metrics] at h ⊢
    rw [h]
    simp [Fval.lt]
  refine ⟨hdi, ?_⟩
  rw [hdi]
  rfl

/-- C10 witness: the theorem applied to `popZeroRef`. -/
theorem full_zero_reference_inf_assessed_violated_witness :
    (calculate_fairness_metrics popZeroRef).disparate_impact = .inf ∧
      demParityViolated (calculate_fairness_metrics popZeroRef).disparate_impact = true :=
  full_zero_reference_inf_assessed_violated popZeroRef
    (full_sr_others_zero popZeroRef (by decide) (by decide))

/-- C5: each record's decision is exactly `risk_score >= threshold`
(inclusive), the full auditor hard-codes threshold 5, and the simplified
script's configured default `high_risk_threshold` is 5. -/
theorem decision_inclusive_threshold_default_five :
    (∀ (t : Int) (r : Row), computeHighRisk t r = true ↔ t ≤ r.decile_score) ∧
    (∀ r : Row, fullYPred r = computeHighRisk 5 r) ∧
    high_risk_threshold = 5 ∧
    (∀ data : List Row, analyze_bias data = analyze_bias_at 5 data) :=
  ⟨fun t r => by simp [computeHighRisk], fun r => rfl, rfl, fun data => rfl⟩

/-- C6: for every population, both scripts' demographic-parity assessment
reads VIOLATED exactly when the computed disparate impact is below 0.8 or
above 1.2 in the IEEE order (an infinite value counts as above 1.2; a
`nan` compares false and reads ACCEPTABLE), and the assessment is the
pure function `demParityViolated` of the stored metric alone. -/
theorem demographic_parity_assessment_iff (pop : List Row) :
    (demParityViolated (calculate_fairness_metrics pop).disparate_impact = true ↔
      (∃ q : ℚ, (calculate_fairness_metrics pop).disparate_impact = .fin q ∧
        (q < 0.8 ∨ (1.2 : ℚ) < q)) ∨
      (calculate_fairness_metrics pop).disparate_impact = .inf) ∧
    (demParityViolated (analyze_bias pop).1.disparate_impact = true ↔
      (∃ q : ℚ, (analyze_bias pop).1.disparate_impact = .fin q ∧
        (q < 0.8 ∨ (1.2 : ℚ) < q)) ∨
      (analyze_bias pop).1.disparate_impact = .inf) :=
  ⟨demParityViolated_iff _ (shape_ne_ninf (full_di_shape pop)),
   demParityViolated_iff _ (shape_ne_ninf (simp_di_shape pop))⟩

/-- C7: for every population, both scripts' equal-opportunity assessment
reads VIOLATED exactly when the absolute FPR gap is a finite value
exceeding 0.05 (the full auditor's gap can be `nan`, which compares false
and reads ACCEPTABLE). -/
theorem equal_opportunity_assessment_iff (pop : List Row) :
    (eqOppViolated (calculate_fairness_metrics pop).fpr_difference = true ↔
      ∃ q : ℚ, (calculate_fairness_metrics pop).fpr_difference = .fin q ∧
        (0.05 : ℚ) < q) ∧
    (eqOppViolated (simpFprGap (analyze_bias pop).1) = true ↔
      ∃ q : ℚ, simpFprGap (analyze_bias pop).1 = .fin q ∧ (0.05 : ℚ) < q) :=
  ⟨eqOppViolated_iff _ (full_fpr_difference_not_inf pop),
   eqOppViolated_iff _ (simp_fpr_gap_not_inf pop)⟩

/-- C4 counterexample: `analyze_bias` assigns the derived `high_risk`
column into the frame the caller passed, so computing the metrics does
change the input data — the no-side-effects claim fails on the simplified
script. -/
theorem analyze_bias_mutates_input : (analyze_bias [rowAA7t]).2 ≠ [rowAA7t] := by
  decide

/-- C4 amended: the computation is pure except for that derived column.
`analyze_bias` changes the frame exactly by overwriting `high_risk` with
`decile_score >= 5`; every original column survives; the metric values
depend only on the original columns; and the full auditor's
`calculate_fairness_metrics` neither writes nor reads the derived column
(its result is invariant under writing it). -/
theorem metric_computation_pure_modulo_high_risk (data : List Row) :
    (analyze_bias data).2 = setHighRisk 5 data ∧
    (analyze_bias data).2.map eraseHighRisk = data.map eraseHighRisk ∧
    (analyze_bias (data.map eraseHighRisk)).1 = (analyze_bias data).1 ∧
    ∀ t : Int, calculate_fairness_metrics (setHighRisk t data)
      = calculate_fairness_metrics data := by
  refine ⟨rfl, ?_, ?_, ?_⟩
  · show (setHighRisk 5 data).map eraseHighRisk = data.map eraseHighRisk
    unfold setHighRisk
    rw [List.map_map]
    rfl
  · simp only [analyze_bias, analyze_bias_at_fst, aaRows_erase, othersRows_erase,
      noRecid_erase, yesRecid_erase, countP_chr_erase, List.length_map]
  · intro t
    simp only [calculate_fairness_metrics, aaRows_setHighRisk,
      othersRows_setHighRisk, pairsOf_setHighRisk]

/-- C2 counterexample: in the non-empty population `popNoNegAA` the
African-American cohort's negative-outcome subset is empty, yet the full
auditor's `fpr_african_american` is the unguarded `0/0`, i.e. `nan` — not
the claimed 0 — so the zero-fill policy is not applied uniformly across
the program. -/
theorem full_fpr_not_zero_filled :
    (noRecid (aaRows popNoNegAA)).length = 0 ∧
    (calculate_fairness_metrics popNoNegAA).fpr_african_american = .nan := by
  refine ⟨by decide, ?_⟩
  show numpyFpr (pairsOf (aaRows popNoNegAA)) = .nan
  have h1 : fpCount (pairsOf (aaRows popNoNegAA)) = 0 := by decide
  have h2 : negCount (pairsOf (aaRows popNoNegAA)) = 0 := by decide
  simp only [numpyFpr, h1, h2]
  simp [Fval.div]

/-- C2 amended: the zero-fill policy holds exactly where the scripts guard
for it — `analyze_bias` zero-fills FPR and TPR on an empty base subset,
and the full auditor's TPRs are zero-filled through sklearn's
`recall_score` — but not in the full auditor's hand-written FPR quotient,
which yields `nan` on an empty negative-outcome subset (see the
counterexample). -/
theorem zero_fill_where_guarded (pop : List Row) :
    (noRecid (aaRows pop) = [] → (analyze_bias pop).1.fpr_aa = .fin 0) ∧
    (noRecid (othersRows pop) = [] → (analyze_bias pop).1.fpr_other = .fin 0) ∧
    (yesRecid (aaRows pop) = [] →
      (analyze_bias pop).1.tpr_aa = .fin 0 ∧
      (calculate_fairness_metrics pop).tpr_african_american = .fin 0) ∧
    (yesRecid (othersRows pop) = [] →
      (analyze_bias pop).1.tpr_other = .fin 0 ∧
      (calculate_fairness_metrics pop).tpr_others = .fin 0) := by
  refine ⟨?_, ?_, ?_, ?_⟩
  · intro h
    simp only [analyze_bias, analyze_bias_at_fst]
    rw [h]
    simp
  · intro h
    simp only [analyze_bias, analyze_bias_at_fst]
    rw [h]
    simp
  · intro h
    have hp : posCount (pairsOf (aaRows pop)) = 0 := by
      rw [← yesRecid_length_eq_posCount, h]
      rfl
    constructor
    · simp only [analyze_bias, analyze_bias_at_fst]
      rw [h]
      simp
    · show Fval.fin (recall_score (pairsOf (aaRows pop))) = .fin 0
      simp [recall_score, hp]
  · intro h
    have hp : posCount (pairsOf (othersRows pop)) = 0 := by
      rw [← yesRecid_length_eq_posCount, h]
      rfl
    constructor
    · simp only [analyze_bias, analyze_bias_at_fst]
      rw [h]
      simp
    · show Fval.fin (recall_score (pairsOf (othersRows pop))) = .fin 0
      simp [recall_score, hp]

/-- C2 amended witness: on the empty population every guard fires and the
guarded rates are all zero-filled. -/
theorem zero_fill_where_guarded_witness :
    (analyze_bias ([] : List Row)).1.fpr_aa = .fin 0 ∧
    (analyze_bias ([] : List Row)).1.fpr_other = .fin 0 ∧
    (analyze_bias ([] : List Row)).1.tpr_aa = .fin 0 ∧
    (calculate_fairness_metrics ([] : List Row)).tpr_others = .fin 0 :=
  ⟨(zero_fill_where_guarded []).1 rfl,
   (zero_fill_where_guarded []).2.1 rfl,
   ((zero_fill_where_guarded []).2.2.1 rfl).1,
   ((zero_fill_where_guarded []).2.2.2 rfl).2⟩

theorem countP_chr_antitone (t1 t2 : Int) (h : t1 ≤ t2) (rows : List Row) :
    rows.countP (computeHighRisk t2) ≤ rows.countP (computeHighRisk t1) := by
  apply List.countP_mono_left
  intro r _ hr
  simp only [computeHighRisk, decide_eq_true_eq] at hr ⊢
  exact le_trans h hr

theorem sr_antitone_meanCount (rows : List Row) (t1 t2 : Int) (h : t1 ≤ t2)
    (hne : rows ≠ []) :
    ∃ q1 q2 : ℚ,
      meanCount (rows.countP (computeHighRisk t1)) rows.length = .fin q1 ∧
      meanCount (rows.countP (computeHighRisk t2)) rows.length = .fin q2 ∧
      q2 ≤ q1 := by
  have hl : rows.length ≠ 0 := Nat.pos_iff_ne_zero.mp (List.length_pos.mpr hne)
  refine ⟨(rows.countP (computeHighRisk t1) : ℚ) / (rows.length : ℚ),
          (rows.countP (computeHighRisk t2) : ℚ) / (rows.length : ℚ),
          by simp [meanCount, hl], by simp [meanCount, hl], ?_⟩
  exact div_le_div_of_nonneg_right
    (by exact_mod_cast countP_chr_antitone t1 t2 h rows) (by positivity)

/-- C9: raising the decision threshold never increases either cohort's
selection rate: for thresholds `t1 ≤ t2` the selection rates computed by
the metric computation at `t2` are at most those computed at `t1`, for
both cohorts. -/
theorem selection_rate_antitone_in_threshold (pop : List Row) (t1 t2 : Int)
    (h : t1 ≤ t2) (haa : aaRows pop ≠ []) (hot : othersRows pop ≠ []) :
    ∃ a1 a2 o1 o2 : ℚ,
      (analyze_bias_at t1 pop).1.selection_rate_aa = .fin a1 ∧
      (analyze_bias_at t2 pop).1.selection_rate_aa = .fin a2 ∧ a2 ≤ a1 ∧
      (analyze_bias_at t1 pop).1.selection_rate_other = .fin o1 ∧
      (analyze_bias_at t2 pop).1.selection_rate_other = .fin o2 ∧ o2 ≤ o1 := by
  obtain ⟨a1, a2, ha1, ha2, hale⟩ := sr_antitone_meanCount (aaRows pop) t1 t2 h haa
  obtain ⟨o1, o2, ho1, ho2, hole⟩ := sr_antitone_meanCount (othersRows pop) t1 t2 h hot
  refine ⟨a1, a2, o1, o2, ?_, ?_, hale, ?_, ?_, hole⟩
  · simp only [analyze_bias_at_fst]
    exact ha1
  · simp only [analyze_bias_at_fst]
    exact ha2
  · simp only [analyze_bias_at_fst]
    exact ho1
  · simp only [analyze_bias_at_fst]
    exact ho2

/-- C9 witness: the theorem applied at thresholds 3 ≤ 7 on `popBalanced`. -/
theorem selection_rate_antitone_witness :
    ∃ a1 a2 o1 o2 : ℚ,
      (analyze_bias_at 3 popBalanced).1.selection_rate_aa = .fin a1 ∧
      (analyze_bias_at 7 popBalanced).1.selection_rate_aa = .fin a2 ∧ a2 ≤ a1 ∧
      (analyze_bias_at 3 popBalanced).1.selection_rate_other = .fin o1 ∧
      (analyze_bias_at 7 popBalanced).1.selection_rate_other = .fin o2 ∧ o2 ≤ o1 :=
  selection_rate_antitone_in_threshold popBalanced 3 7 (by decide) (by decide) (by decide)

theorem numpyFpr_nan_of_no_neg (l : List (Bool × Bool)) (h : negCount l = 0) :
    numpyFpr l = .nan := by
  have hfp : fpCount l = 0 := Nat.le_zero.mp (h ▸ fpCount_le_negCount l)
  simp only [numpyFpr, h, hfp]
  simp [Fval.div]

theorem meanCount_zero_of (num den : ℕ) (h : num = 0) (hd : den ≠ 0) :
    meanCount num den = .fin 0 := by
  subst h
  simp [meanCount, hd]

theorem simp_sr_fields (pop : List Row) :
    (analyze_bias pop).1.selection_rate_aa
      = meanCount ((aaRows pop).countP (computeHighRisk 5)) (aaRows pop).length ∧
    (analyze_bias pop).1.selection_rate_other
      = meanCount ((othersRows pop).countP (computeHighRisk 5)) (othersRows pop).length := by
  constructor <;> simp only [analyze_bias, high_risk_threshold, analyze_bias_at_fst]

/-- C8 counterexample: the two cohorts of `popIdenticalZeroSel` have
identical (outcome, decision) contents, but both selection rates are 0, so
the full auditor's disparate impact is `inf` and the simplified one's is
`nan` — not the claimed 1.0 — and the full auditor's FPR gap is `nan`, not
0. -/
theorem identical_cohorts_di_not_one :
    pairsOf (aaRows popIdenticalZeroSel) = pairsOf (othersRows popIdenticalZeroSel) ∧
    (calculate_fairness_metrics popIdenticalZeroSel).disparate_impact = .inf ∧
    (analyze_bias popIdenticalZeroSel).1.disparate_impact = .nan ∧
    (calculate_fairness_metrics popIdenticalZeroSel).fpr_difference = .nan := by
  refine ⟨by decide, ?_, ?_, ?_⟩
  · have hs : (calculate_fairness_metrics popIdenticalZeroSel).selection_rate_others = .fin 0 :=
      full_sr_others_zero popIdenticalZeroSel (by decide) (by decide)
    simp only [calculate_fairness_metrics] at hs ⊢
    rw [hs]
    simp [Fval.lt]
  · have ha : (analyze_bias popIdenticalZeroSel).1.selection_rate_aa = .fin 0 := by
      rw [(simp_sr_fields popIdenticalZeroSel).1]
      exact meanCount_zero_of _ _ (by decide) (by decide)
    have ho : (analyze_bias popIdenticalZeroSel).1.selection_rate_other = .fin 0 := by
      rw [(simp_sr_fields popIdenticalZeroSel).2]
      exact meanCount_zero_of _ _ (by decide) (by decide)
    have hdi : (analyze_bias popIdenticalZeroSel).1.disparate_impact
        = Fval.div (analyze_bias popIdenticalZeroSel).1.selection_rate_aa
            (analyze_bias popIdenticalZeroSel).1.selection_rate_other := rfl
    rw [hdi, ha, ho]
    simp [Fval.div]
  · show Fval.abs (Fval.sub (numpyFpr (pairsOf (aaRows popIdenticalZeroSel)))
        (numpyFpr (pairsOf (othersRows popIdenticalZeroSel)))) = .nan
    rw [numpyFpr_nan_of_no_neg _ (by decide), numpyFpr_nan_of_no_neg _ (by decide)]
    rfl

/-- C8 amended: when the cohorts' (outcome, decision) multisets coincide
and the shared content has at least one selected record and at least one
negative-outcome record, both scripts compute `disparate_impact = 1` and
all four gap metrics are 0.  (Without a selected record the disparate
impact degenerates to `inf`/`nan`, and without a negative-outcome record
the full auditor's FPR gap is `nan`, as the counterexample shows.) -/
theorem identical_cohorts_amended (pop : List Row)
    (hperm : (pairsOf (aaRows pop)).Perm (pairsOf (othersRows pop)))
    (hsel : 0 < predPosCount (pairsOf (aaRows pop)))
    (hneg : 0 < negCount (pairsOf (aaRows pop))) :
    (calculate_fairness_metrics pop).disparate_impact = .fin 1 ∧
    (analyze_bias pop).1.disparate_impact = .fin 1 ∧
    (calculate_fairness_metrics pop).fpr_difference = .fin 0 ∧
    (calculate_fairness_metrics pop).tpr_difference = .fin 0 ∧
    simpFprGap (analyze_bias pop).1 = .fin 0 ∧
    simpTprGap (analyze_bias pop).1 = .fin 0 := by
  have hlen : (pairsOf (aaRows pop)).length = (pairsOf (othersRows pop)).length :=
    hperm.length_eq
  have hpp : predPosCount (pairsOf (aaRows pop))
      = predPosCount (pairsOf (othersRows pop)) := hperm.countP_eq _
  have hnegc : negCount (pairsOf (aaRows pop))
      = negCount (pairsOf (othersRows pop)) := hperm.countP_eq _
  have hfpc : fpCount (pairsOf (aaRows pop))
      = fpCount (pairsOf (othersRows pop)) := hperm.countP_eq _
  have hposc : posCount (pairsOf (aaRows pop))
      = posCount (pairsOf (othersRows pop)) := hperm.countP_eq _
  have htpc : tpCount (pairsOf (aaRows pop))
      = tpCount (pairsOf (othersRows pop)) := hperm.countP_eq _
  have hlenpos : 0 < (pairsOf (aaRows pop)).length :=
    lt_of_lt_of_le hsel (List.countP_le_length _)
  have hlenne : (pairsOf (aaRows pop)).length ≠ 0 := Nat.pos_iff_ne_zero.mp hlenpos
  have hs : (0:ℚ) < (predPosCount (pairsOf (aaRows pop)) : ℚ)
      / ((pairsOf (aaRows pop)).length : ℚ) :=
    div_pos (by exact_mod_cast hsel) (by exact_mod_cast hlenpos)
  have hs0 : (predPosCount (pairsOf (aaRows pop)) : ℚ)
      / ((pairsOf (aaRows pop)).length : ℚ) ≠ 0 := ne_of_gt hs
  have hsra : npSelectionRate (pairsOf (aaRows pop))
      = .fin ((predPosCount (pairsOf (aaRows pop)) : ℚ)
          / ((pairsOf (aaRows pop)).length : ℚ)) := by
    simp [npSelectionRate, meanCount, hlenne]
  have hsro : npSelectionRate (pairsOf (othersRows pop))
      = npSelectionRate (pairsOf (aaRows pop)) := by
    unfold npSelectionRate
    rw [← hpp, ← hlen]
  refine ⟨?_, ?_, ?_, ?_, ?_, ?_⟩
  · show (if Fval.lt (.fin 0) (npSelectionRate (pairsOf (othersRows pop)))
        then Fval.div (npSelectionRate (pairsOf (aaRows pop)))
          (npSelectionRate (pairsOf (othersRows pop)))
        else .inf) = .fin 1
    rw [hsro, hsra]
    simp [Fval.lt, Fval.div, hs, hs0, div_self hs0]
  · have hdi : (analyze_bias pop).1.disparate_impact
        = Fval.div (analyze_bias pop).1.selection_rate_aa
            (analyze_bias pop).1.selection_rate_other := rfl
    rw [hdi, (simp_sr_fields pop).1, (simp_sr_fields pop).2,
        countP_chr5_eq_predPosCount (aaRows pop),
        countP_chr5_eq_predPosCount (othersRows pop),
        show (aaRows pop).length = (pairsOf (aaRows pop)).length from
          (pairsOf_length _).symm,
        show (othersRows pop).length = (pairsOf (othersRows pop)).length from
          (pairsOf_length _).symm,
        ← hpp, ← hlen]
    simp [meanCount, hlenne, Fval.div, hs, hs0, div_self hs0]
  · show Fval.abs (Fval.sub (numpyFpr (pairsOf (aaRows pop)))
        (numpyFpr (pairsOf (othersRows pop)))) = .fin 0
    have hO : numpyFpr (pairsOf (othersRows pop)) = numpyFpr (pairsOf (aaRows pop)) := by
      unfold numpyFpr
      rw [← hfpc, ← hnegc]
    obtain ⟨q, hq, _, _⟩ := numpyFpr_fin _ (Nat.pos_iff_ne_zero.mp hneg)
    rw [hO, hq]
    simp [Fval.sub, Fval.abs]
  · show Fval.abs (Fval.sub (.fin (recall_score (pairsOf (aaRows pop))))
        (.fin (recall_score (pairsOf (othersRows pop))))) = .fin 0
    have hO : recall_score (pairsOf (othersRows pop))
        = recall_score (pairsOf (aaRows pop)) := by
      unfold recall_score
      rw [← htpc, ← hposc]
    rw [hO]
    simp [Fval.sub, Fval.abs]
  · have hfeq : (analyze_bias pop).1.fpr_aa = (analyze_bias pop).1.fpr_other := by
      simp only [analyze_bias, high_risk_threshold, analyze_bias_at_fst]
      rw [noRecid_countP_eq_fpCount (aaRows pop), noRecid_countP_eq_fpCount (othersRows pop),
          noRecid_length_eq_negCount (aaRows pop), noRecid_length_eq_negCount (othersRows pop),
          ← hfpc, ← hnegc]
    obtain ⟨q, hq, _, _⟩ := (simp_fpr_fin pop).1
    simp only [simpFprGap]
    rw [← hfeq, hq]
    simp [Fval.sub, Fval.abs]
  · have hteq : (analyze_bias pop).1.tpr_aa = (analyze_bias pop).1.tpr_other := by
      simp only [analyze_bias, high_risk_threshold, analyze_bias_at_fst]
      rw [yesRecid_countP_eq_tpCount (aaRows pop), yesRecid_countP_eq_tpCount (othersRows pop),
          yesRecid_length_eq_posCount (aaRows pop), yesRecid_length_eq_posCount (othersRows pop),
          ← htpc, ← hposc]
    obtain ⟨q, hq, _, _⟩ := (simp_tpr_fin pop).1
    simp only [simpTprGap]
    rw [← hteq, hq]
    simp [Fval.sub, Fval.abs]

/-- C8 amended witness: the theorem applied to `popBalanced`, whose two
cohorts hold identical content with a selected and a negative record. -/
theorem identical_cohorts_amended_witness :
    (calculate_fairness_metrics popBalanced).disparate_impact = .fin 1 ∧
    (analyze_bias popBalanced).1.disparate_impact = .fin 1 ∧
    (calculate_fairness_metrics popBalanced).fpr_difference = .fin 0 ∧
    (calculate_fairness_metrics popBalanced).tpr_difference = .fin 0 ∧
    simpFprGap (analyze_bias popBalanced).1 = .fin 0 ∧
    simpTprGap (analyze_bias popBalanced).1 = .fin 0 :=
  identical_cohorts_amended popBalanced
    (by rw [show pairsOf (aaRows popBalanced) = pairsOf (othersRows popBalanced) by decide])
    (by decide) (by decide)

theorem inUnit_of (x : Fval) (q : ℚ) (hx : x = .fin q) (h0 : 0 ≤ q) (h1 : q ≤ 1) :
    x.inUnit = true := by
  subst hx
  simp [Fval.inUnit, h0, h1]

theorem meanCount_inUnit (num den : ℕ) (hle : num ≤ den) (hd : den ≠ 0) :
    (meanCount num den).inUnit = true := by
  obtain ⟨q, hq, h0, h1⟩ := meanCount_fin num den hd
  exact inUnit_of _ q hq h0 (h1 hle)

theorem sub_one_inUnit (x : Fval) (q : ℚ) (hx : x = .fin q) (h0 : 0 ≤ q) (h1 : q ≤ 1) :
    (Fval.sub (.fin 1) x).inUnit = true := by
  subst hx
  show (Fval.fin (1 - q)).inUnit = true
  simp only [Fval.inUnit, decide_eq_true_eq]
  constructor <;> linarith

theorem abs_sub_inUnit (x y : Fval) (a b : ℚ) (hx : x = .fin a) (hy : y = .fin b)
    (ha0 : 0 ≤ a) (ha1 : a ≤ 1) (hb0 : 0 ≤ b) (hb1 : b ≤ 1) :
    (Fval.abs (Fval.sub x y)).inUnit = true := by
  subst hx
  subst hy
  show (Fval.fin |a - b|).inUnit = true
  simp only [Fval.inUnit, decide_eq_true_eq]
  refine ⟨abs_nonneg _, ?_⟩
  rw [abs_sub_le_iff]
  constructor <;> linarith

/-- C3 counterexample: `popNoNegAA` is a non-empty population on which the
full auditor's rate-valued field `fpr_african_american` is `nan`, hence
outside [0,1], refuting the invariant as stated for all non-empty
populations. -/
theorem rate_field_outside_unit_interval :
    popNoNegAA ≠ [] ∧
    (calculate_fairness_metrics popNoNegAA).fpr_african_american = .nan ∧
    ((calculate_fairness_metrics popNoNegAA).fpr_african_american).inUnit = false := by
  have hn : (calculate_fairness_metrics popNoNegAA).fpr_african_american = .nan := by
    show numpyFpr (pairsOf (aaRows popNoNegAA)) = .nan
    exact numpyFpr_nan_of_no_neg _ (by decide)
  refine ⟨by decide, hn, ?_⟩
  rw [hn]
  rfl

/-- C3 amended: on populations in which each cohort has at least one
negative-outcome record (the only restriction the `nan`-FPR
counterexample forces — the TPR-family fields are zero-filled and in
[0,1] unconditionally), every rate-valued field of both metric sets is a
finite value in [0,1] (selection rates, TPRs, FPRs, TNRs, the overall
accuracy / precision / recall / F1, and both gap metrics); the full
auditor's disparate impact is either `inf` or finite non-negative and
never `nan`; the simplified script's disparate impact is likewise, except
in the one case the counterexample family forces: when both selection
rates are zero it is the IEEE `0/0`, i.e. `nan`. -/
theorem rates_in_unit_interval_amended (pop : List Row)
    (h2 : noRecid (aaRows pop) ≠ []) (h4 : noRecid (othersRows pop) ≠ []) :
    ((calculate_fairness_metrics pop).accuracy).inUnit = true ∧
    ((calculate_fairness_metrics pop).precisionOverall).inUnit = true ∧
    ((calculate_fairness_metrics pop).recallOverall).inUnit = true ∧
    ((calculate_fairness_metrics pop).f1).inUnit = true ∧
    ((calculate_fairness_metrics pop).tpr_african_american).inUnit = true ∧
    ((calculate_fairness_metrics pop).tpr_others).inUnit = true ∧
    ((calculate_fairness_metrics pop).fpr_african_american).inUnit = true ∧
    ((calculate_fairness_metrics pop).fpr_others).inUnit = true ∧
    ((calculate_fairness_metrics pop).tnr_african_american).inUnit = true ∧
    ((calculate_fairness_metrics pop).tnr_others).inUnit = true ∧
    ((calculate_fairness_metrics pop).selection_rate_african_american).inUnit = true ∧
    ((calculate_fairness_metrics pop).selection_rate_others).inUnit = true ∧
    ((calculate_fairness_metrics pop).tpr_difference).inUnit = true ∧
    ((calculate_fairness_metrics pop).fpr_difference).inUnit = true ∧
    ((analyze_bias pop).1.selection_rate_aa).inUnit = true ∧
    ((analyze_bias pop).1.selection_rate_other).inUnit = true ∧
    ((analyze_bias pop).1.fpr_aa).inUnit = true ∧
    ((analyze_bias pop).1.fpr_other).inUnit = true ∧
    ((analyze_bias pop).1.tpr_aa).inUnit = true ∧
    ((analyze_bias pop).1.tpr_other).inUnit = true ∧
    ((calculate_fairness_metrics pop).disparate_impact = .inf ∨
      ∃ q : ℚ, (calculate_fairness_metrics pop).disparate_impact = .fin q ∧ 0 ≤ q) ∧
    ((analyze_bias pop).1.selection_rate_aa = .fin 0 ∧
        (analyze_bias pop).1.selection_rate_other = .fin 0 →
      (analyze_bias pop).1.disparate_impact = .nan) ∧
    (¬((analyze_bias pop).1.selection_rate_aa = .fin 0 ∧
        (analyze_bias pop).1.selection_rate_other = .fin 0) →
      (analyze_bias pop).1.disparate_impact = .inf ∨
        ∃ q : ℚ, (analyze_bias pop).1.disparate_impact = .fin q ∧ 0 ≤ q) := by
  have haa : aaRows pop ≠ [] := fun h => h2 (by rw [h]; rfl)
  have hoth : othersRows pop ≠ [] := fun h => h4 (by rw [h]; rfl)
  have hpop : pop ≠ [] := fun h => haa (by rw [h]; rfl)
  have hlaa : (aaRows pop).length ≠ 0 :=
    Nat.pos_iff_ne_zero.mp (List.length_pos.mpr haa)
  have hloth : (othersRows pop).length ≠ 0 :=
    Nat.pos_iff_ne_zero.mp (List.length_pos.mpr hoth)
  have hplen : (pairsOf pop).length ≠ 0 := by
    rw [pairsOf_length]
    exact Nat.pos_iff_ne_zero.mp (List.length_pos.mpr hpop)
  have hpaa : (pairsOf (aaRows pop)).length ≠ 0 := by
    rw [pairsOf_length]; exact hlaa
  have hpoth : (pairsOf (othersRows pop)).length ≠ 0 := by
    rw [pairsOf_length]; exact hloth
  have hnegaa : negCount (pairsOf (aaRows pop)) ≠ 0 := by
    rw [← noRecid_length_eq_negCount]
    exact Nat.pos_iff_ne_zero.mp (List.length_pos.mpr h2)
  have hnegoth : negCount (pairsOf (othersRows pop)) ≠ 0 := by
    rw [← noRecid_length_eq_negCount]
    exact Nat.pos_iff_ne_zero.mp (List.length_pos.mpr h4)
  obtain ⟨fa, hfa, hfa0, hfa1⟩ := numpyFpr_fin (pairsOf (aaRows pop)) hnegaa
  obtain ⟨fo, hfo, hfo0, hfo1⟩ := numpyFpr_fin (pairsOf (othersRows pop)) hnegoth
  obtain ⟨sa, hsa, hsa0, hsa1⟩ :
      ∃ q : ℚ, npSelectionRate (pairsOf (aaRows pop)) = .fin q ∧ 0 ≤ q ∧ q ≤ 1 := by
    obtain ⟨q, hq, h0q, h1q⟩ := meanCount_fin _ _ hpaa
    exact ⟨q, hq, h0q, h1q (List.countP_le_length _)⟩
  obtain ⟨so, hso, hso0, hso1⟩ :
      ∃ q : ℚ, npSelectionRate (pairsOf (othersRows pop)) = .fin q ∧ 0 ≤ q ∧ q ≤ 1 := by
    obtain ⟨q, hq, h0q, h1q⟩ := meanCount_fin _ _ hpoth
    exact ⟨q, hq, h0q, h1q (List.countP_le_length _)⟩
  obtain ⟨ua, hua, hua0, hua1⟩ :
      ∃ q : ℚ, (analyze_bias pop).1.selection_rate_aa = .fin q ∧ 0 ≤ q ∧ q ≤ 1 := by
    rw [(simp_sr_fields pop).1]
    obtain ⟨q, hq, h0q, h1q⟩ := meanCount_fin _ _ hlaa
    exact ⟨q, hq, h0q, h1q (List.countP_le_length _)⟩
  obtain ⟨uo, huo, huo0, huo1⟩ :
      ∃ q : ℚ, (analyze_bias pop).1.selection_rate_other = .fin q ∧ 0 ≤ q ∧ q ≤ 1 := by
    rw [(simp_sr_fields pop).2]
    obtain ⟨q, hq, h0q, h1q⟩ := meanCount_fin _ _ hloth
    exact ⟨q, hq, h0q, h1q (List.countP_le_length _)⟩
  obtain ⟨qfa, hqfa, hqfa0, hqfa1⟩ := (simp_fpr_fin pop).1
  obtain ⟨qfo, hqfo, hqfo0, hqfo1⟩ := (simp_fpr_fin pop).2
  obtain ⟨qta, hqta, hqta0, hqta1⟩ := (simp_tpr_fin pop).1
  obtain ⟨qto, hqto, hqto0, hqto1⟩ := (simp_tpr_fin pop).2
  have hdifulleq : (calculate_fairness_metrics pop).disparate_impact
      = (if Fval.lt (.fin 0) (npSelectionRate (pairsOf (othersRows pop)))
        then Fval.div (npSelectionRate (pairsOf (aaRows pop)))
          (npSelectionRate (pairsOf (othersRows pop)))
        else .inf) := rfl
  have hdisimpeq : (analyze_bias pop).1.disparate_impact
      = Fval.div (analyze_bias pop).1.selection_rate_aa
          (analyze_bias pop).1.selection_rate_other := rfl
  have hdifull : (calculate_fairness_metrics pop).disparate_impact = .inf ∨
      ∃ q : ℚ, (calculate_fairness_metrics pop).disparate_impact = .fin q ∧ 0 ≤ q := by
    rw [hdifulleq, hsa, hso]
    by_cases hpos : 0 < so
    · right
      refine ⟨sa / so, ?_, by positivity⟩
      simp [Fval.lt, Fval.div, hpos, ne_of_gt hpos]
    · have hz : so = 0 := le_antisymm (not_lt.mp hpos) hso0
      left
      rw [hz]
      simp [Fval.lt]
  refine ⟨meanCount_inUnit _ _ (List.countP_le_length _) hplen,
    inUnit_of _ _ rfl (precision_score_mem _).1 (precision_score_mem _).2,
    inUnit_of _ _ rfl (recall_score_mem _).1 (recall_score_mem _).2,
    inUnit_of _ _ rfl (f1_score_mem _).1 (f1_score_mem _).2,
    inUnit_of _ _ rfl (recall_score_mem _).1 (recall_score_mem _).2,
    inUnit_of _ _ rfl (recall_score_mem _).1 (recall_score_mem _).2,
    inUnit_of _ fa hfa hfa0 hfa1,
    inUnit_of _ fo hfo hfo0 hfo1,
    sub_one_inUnit _ fa hfa hfa0 hfa1,
    sub_one_inUnit _ fo hfo hfo0 hfo1,
    inUnit_of _ sa hsa hsa0 hsa1,
    inUnit_of _ so hso hso0 hso1,
    abs_sub_inUnit _ _ _ _ rfl rfl (recall_score_mem _).1 (recall_score_mem _).2
      (recall_score_mem _).1 (recall_score_mem _).2,
    abs_sub_inUnit _ _ fa fo hfa hfo hfa0 hfa1 hfo0 hfo1,
    inUnit_of _ ua hua hua0 hua1,
    inUnit_of _ uo huo huo0 huo1,
    inUnit_of _ qfa hqfa hqfa0 hqfa1,
    inUnit_of _ qfo hqfo hqfo0 hqfo1,
    inUnit_of _ qta hqta hqta0 hqta1,
    inUnit_of _ qto hqto hqto0 hqto1,
    hdifull, ?_, ?_⟩
  · rintro ⟨hz1, hz2⟩
    rw [hdisimpeq, hz1, hz2]
    simp [Fval.div]
  · intro hnz
    by_cases hzo : uo = 0
    · have hza : ua ≠ 0 := by
        intro h
        exact hnz ⟨by rw [hua, h], by rw [huo, hzo]⟩
      left
      rw [hdisimpeq, hua, huo, hzo]
      simp [Fval.div, hza, lt_of_le_of_ne hua0 (Ne.symm hza)]
    · right
      refine ⟨ua / uo, ?_, by positivity⟩
      rw [hdisimpeq, hua, huo]
      simp [Fval.div, hzo]

/-- C3 amended witness: the theorem applied to `popAllSubsets`, in which
each cohort has a negative-outcome record. -/
theorem rates_in_unit_interval_witness :
    ((calculate_fairness_metrics popAllSubsets).accuracy).inUnit = true :=
  (rates_in_unit_interval_amended popAllSubsets (by decide) (by decide)).1
